import Mathlib

/-!
Verification of the StimIQ simulation / optimization core against its
specification.  The Lean definitions below are shallow embeddings of the
Python sources: machine floats are modelled by real numbers, numpy arrays
by lists, and fallible code by Except values.  Each definition cites the
source file it embeds.
-/

namespace StimIQ

open scoped Real

/-- Python exception kinds raised by the embedded code paths. -/
inductive PyError
  | typeError
  | valueError
  | indexError
deriving DecidableEq

/-- Three-axis vector (one row of an (n,3) kinematics array). -/
def Vec3 : Type := ℝ × ℝ × ℝ

/-- Componentwise vector addition on 3-axis rows. -/
def vadd (a b : Vec3) : Vec3 := (a.1 + b.1, a.2.1 + b.2.1, a.2.2 + b.2.2)

/-- Scalar multiplication of a 3-axis row. -/
def vsmul (c : ℝ) (a : Vec3) : Vec3 := (c * a.1, c * a.2.1, c * a.2.2)

/-- Sum of squares of the three components of a row. -/
def vnormSq (a : Vec3) : ℝ := a.1 ^ 2 + a.2.1 ^ 2 + a.2.2 ^ 2

/-- Arithmetic mean of a list, as numpy mean (empty list gives 0/0 = 0 in this model). -/
noncomputable def listMean (l : List ℝ) : ℝ := l.sum / l.length

/-- Embeds numpy clip: clamp x into the closed interval from lo to hi. -/
noncomputable def clip (x lo hi : ℝ) : ℝ := min (max x lo) hi

/-- Python float modulo with a positive divisor: the representative of x modulo p
lying in the half-open interval from 0 to p. -/
noncomputable def fmod (x p : ℝ) : ℝ := x - p * ⌊x / p⌋

/-- Mean of consecutive differences of a time grid, embedding numpy mean of diff. -/
noncomputable def meanDiff (t : List ℝ) : ℝ := listMean (t.tail.zipWith (fun a b => a - b) t)

/-- Minimum of a list of reals (numpy min; 0 default for the empty case, unreachable in use). -/
noncomputable def listMin (l : List ℝ) : ℝ := l.foldr min (l.headD 0)

/-- Python round-half-to-even on a real, as used by the built-in round. -/
noncomputable def pyRound (x : ℝ) : ℤ :=
  if Int.fract x = 1 / 2 then
    (if 2 ∣ ⌊x⌋ then ⌊x⌋ else ⌊x⌋ + 1)
  else ⌊x + 1 / 2⌋

/-! ## sim/stimulation/waveforms.py -/

/-- The closed-form periodic on-time integral used by the area-preserving sampler
(the inner helper of square_pulse_train in sim/stimulation/waveforms.py). -/
noncomputable def periodicOnIntegral (x p w : ℝ) : ℝ :=
  (⌊x / p⌋ : ℝ) * w + min (x - p * ⌊x / p⌋) w

/-- Embeds square_pulse_train from sim/stimulation/waveforms.py: a periodic square
pulse of given amplitude, frequency, width and phase, sampled area-preservingly. -/
noncomputable def square_pulse_train (t : List ℝ) (amp freq_hz pulse_width_s phase : ℝ) :
    List ℝ :=
  if freq_hz ≤ 0 then t.map fun _ => 0
  else if t.length = 0 then t.map fun _ => 0
  else if t.length = 1 then
    let period := 1 / freq_hz
    t.map fun x =>
      if fmod (x + phase / (2 * Real.pi * freq_hz)) period < pulse_width_s then amp else 0
  else
    let period := 1 / freq_hz
    let width := clip pulse_width_s 0 period
    if width ≤ 0 then t.map fun _ => 0
    else if period ≤ width then t.map fun _ => amp
    else
      let dt := meanDiff t
      let tau := phase / (2 * Real.pi * freq_hz)
      let a := t.map fun x => x + tau - dt / 2
      let minA := listMin a
      let shift := if minA < 0 then (⌈(-minA) / period⌉ + 1 : ℝ) * period else 0
      a.map fun av =>
        amp * clip ((periodicOnIntegral (av + dt + shift) period width -
          periodicOnIntegral (av + shift) period width) / dt) 0 1

/-! ## sim/api/types.py -/

/-- A numpy ndarray modelled as a shape vector plus row-major flat data. -/
structure NpArray where
  shape : List ℕ
  data : List ℝ

/-- StimParams from sim/api/types.py: four per-channel parameter arrays. -/
structure StimParams where
  amp : List ℝ
  freq : List ℝ
  pw : List ℝ
  phase : List ℝ

/-- The checked constructor of StimParams: its post-init hook raises ValueError
unless freq, pw and phase all have the same shape (N,) as amp. -/
def mkStimParams (amp freq pw phase : List ℝ) : Except PyError StimParams :=
  if freq.length = amp.length ∧ pw.length = amp.length ∧ phase.length = amp.length then
    .ok ⟨amp, freq, pw, phase⟩
  else .error .valueError

/-- Number of stimulation channels (StimParams.n_channels). -/
def StimParams.n_channels (p : StimParams) : ℕ := p.amp.length

/-- StimParams.as_matrix: vstack of the four rows into a (4, N) array. -/
def StimParams.as_matrix (p : StimParams) : NpArray :=
  ⟨[4, p.amp.length], p.amp ++ p.freq ++ p.pw ++ p.phase⟩

/-- StimParams.from_matrix: requires a 2-dimensional array with first dimension 4,
then builds StimParams from its four rows (raising ValueError otherwise). -/
def StimParams.from_matrix (a : NpArray) : Except PyError StimParams :=
  if a.shape.length = 2 ∧ a.shape.headD 0 = 4 then
    let n := a.shape.getD 1 0
    mkStimParams (a.data.take n) ((a.data.drop n).take n)
      ((a.data.drop (2 * n)).take n) ((a.data.drop (3 * n)).take n)
  else .error .valueError

/-- RolloutConfig from sim/api/types.py. -/
structure RolloutConfig where
  dt : ℝ
  duration_s : ℝ
  imu_sample_rate_hz : ℝ
  include_noise : Bool
  schema_version : String

/-- RolloutConfig.n_steps: floor(duration_s / dt) + 1. -/
noncomputable def RolloutConfig.n_steps (c : RolloutConfig) : ℤ := ⌊c.duration_s / c.dt⌋ + 1

/-- Embeds numpy linspace from 0 to stop with n points. -/
noncomputable def linspace (stop : ℝ) (n : ℕ) : List ℝ :=
  if n ≤ 1 then List.replicate n 0
  else (List.range n).map fun i => stop * i / (n - 1 : ℕ)

/-- RolloutConfig.t: the simulation time grid. -/
noncomputable def RolloutConfig.t (c : RolloutConfig) : List ℝ := linspace c.duration_s c.n_steps.toNat

/-- The brain entry map of PatientParams (string-keyed dict in the source; the
fields are exactly the keys read by BGTCSLite.simulate). -/
structure BrainMap where
  natural_freq_hz : Option ℝ
  damping : Option ℝ
  coupling : Option ℝ
  inhibition : Option ℝ
  drive_noise_std : Option ℝ

/-- The periphery entry map of PatientParams (keys read by SpringMass3D.simulate). -/
structure PeripheryMap where
  freq_hz : Option ℝ
  damping : Option ℝ
  gain : Option ℝ
  mix : Option (List ℝ)

/-- The sensor entry map of PatientParams (keys read by IMUModel.observe). -/
structure SensorMap where
  noise_std : Option ℝ
  bias_std : Option ℝ
  drift_per_s : Option ℝ

/-- PatientParams as declared in sim/api/types.py: exactly three parameter maps
(brain, periphery, sensor).  The dataclass has no treatment_goals field. -/
structure PatientParams where
  brain : BrainMap
  periphery : PeripheryMap
  sensor : SensorMap

/-- Metadata dict attached to a MeasurementOutput by IMUModel.observe. -/
structure MeasurementMeta where
  schema_version : String
  sample_rate_hz : ℝ
  n_samples : ℕ

/-- MeasurementOutput from sim/api/types.py: the terminal artifact of one rollout. -/
structure MeasurementOutput where
  t : List ℝ
  pos : List Vec3
  vel : List Vec3
  acc : List Vec3
  meta : MeasurementMeta

/-- LatentState from sim/api/types.py; the features dict is expanded into its two
keys (bandpower_proxy and drive_in). -/
structure LatentState where
  t : List ℝ
  drive : List (List ℝ)
  bandpower_proxy : List ℝ
  drive_in : List ℝ

/-- KinematicState from sim/api/types.py. -/
structure KinematicState where
  t : List ℝ
  pos : List Vec3
  vel : List Vec3
  acc : List Vec3

/-! ## Random source model

A numpy Generator is modelled as a pure stream: a seed plus a position in the
stream.  The concrete draw values stand in for PCG64 output; every property
proved here depends only on the draws being a pure function of seed and
position, which is exactly numpy's contract for default_rng(seed). -/

/-- State of a numpy random Generator: the seed it was created from and how many
variates have been consumed. -/
structure Rng where
  seed : ℕ
  pos : ℕ

/-- Model of one standard-normal variate of the generator stream, a pure
function of (seed, position). -/
noncomputable def rngStdNormal (seed pos : ℕ) : ℝ :=
  (((seed + 1) * 48271 + pos * 69621) % 2147483647 : ℕ) / 2147483647 - 1 / 2

/-- Model of numpy default_rng: with an explicit seed the stream is a function
of that seed alone; with seed None the generator is seeded from OS entropy. -/
def default_rng (entropy : ℕ) (seed : Option ℕ) : Rng := ⟨seed.getD entropy, 0⟩

/-- Draw n standard-normal variates, advancing the stream. -/
noncomputable def Rng.take (g : Rng) (n : ℕ) : List ℝ × Rng :=
  ((List.range n).map fun i => rngStdNormal g.seed (g.pos + i), ⟨g.seed, g.pos + n⟩)

/-- Draw n variates from a normal distribution with the given location and scale. -/
noncomputable def Rng.normalList (g : Rng) (mu sigma : ℝ) (n : ℕ) : List ℝ × Rng :=
  let p := g.take n
  (p.1.map fun x => mu + sigma * x, p.2)

/-- Draw one normal variate. -/
noncomputable def Rng.normal1 (g : Rng) (mu sigma : ℝ) : ℝ × Rng :=
  (mu + sigma * rngStdNormal g.seed g.pos, ⟨g.seed, g.pos + 1⟩)

/-- Draw one log-normal variate (exp of a normal draw). -/
noncomputable def Rng.lognormal1 (g : Rng) (mu sigma : ℝ) : ℝ × Rng :=
  (Real.exp (mu + sigma * rngStdNormal g.seed g.pos), ⟨g.seed, g.pos + 1⟩)

/-- Draw k rows of 3 normal variates each (row-major), as numpy normal with
size (k, 3). -/
noncomputable def Rng.normalVec3List (g : Rng) (sigma : ℝ) (k : ℕ) : List Vec3 × Rng :=
  ((List.range k).map fun i =>
      (sigma * rngStdNormal g.seed (g.pos + 3 * i),
       sigma * rngStdNormal g.seed (g.pos + 3 * i + 1),
       sigma * rngStdNormal g.seed (g.pos + 3 * i + 2)),
   ⟨g.seed, g.pos + 3 * k⟩)

/-! ## sim/stimulation/encoding.py -/

/-- The reduction mode of WaveformEncoder. -/
inductive Reduction
  | sum
  | mean
  | keep

/-- WaveformEncoder configuration (sim/stimulation/encoding.py). -/
structure WaveformEncoder where
  reduction : Reduction

/-- Stack per-channel signals into time-major rows (numpy stack along axis 1). -/
def stackColumns (chans : List (List ℝ)) (n : ℕ) : List (List ℝ) :=
  (List.range n).map fun j => chans.map fun c => c.getD j 0

/-- WaveformEncoder.encode: per-channel square pulse trains combined by the
configured reduction (sum, mean, or kept separate). -/
noncomputable def WaveformEncoder.encode (enc : WaveformEncoder) (t : List ℝ) (p : StimParams) :
    List (List ℝ) :=
  let chans := (List.range p.n_channels).map fun i =>
    square_pulse_train t (p.amp.getD i 0) (p.freq.getD i 0) (p.pw.getD i 0) (p.phase.getD i 0)
  let u := stackColumns chans t.length
  match enc.reduction with
  | .sum => u.map fun row => [row.sum]
  | .mean => u.map fun row => [listMean row]
  | .keep => u

/-! ## sim/brain/utils.py and sim/brain/bgtcs_meanfield.py -/

/-- Full discrete convolution (numpy convolve mode full). -/
noncomputable def convFull (a b : List ℝ) : List ℝ :=
  (List.range (a.length + b.length - 1)).map fun k =>
    ((List.range a.length).map fun i =>
      if i ≤ k then a.getD i 0 * b.getD (k - i) 0 else 0).sum

/-- Numpy convolve with mode same: the centered slice of the full convolution. -/
noncomputable def convolveSame (a b : List ℝ) : List ℝ :=
  ((convFull a b).drop ((min a.length b.length - 1) / 2)).take (max a.length b.length)

/-- Embeds moving_rms from sim/brain/utils.py: square, box-filter, square root. -/
noncomputable def moving_rms (x : List ℝ) (window : ℤ) : List ℝ :=
  let w := (max 1 window).toNat
  (convolveSame (x.map fun v => v ^ 2) (List.replicate w (1 / (w : ℝ)))).map Real.sqrt

/-- BGTCSLite constructor parameters (sim/brain/bgtcs_meanfield.py). -/
structure BGTCSLite where
  natural_freq_hz : ℝ
  damping : ℝ
  coupling : ℝ
  inhibition : ℝ
  drive_noise_std : ℝ
  dt_hint : ℝ

/-- The BGTCSLite defaults from its constructor signature. -/
noncomputable def BGTCSLite.default : BGTCSLite := ⟨5, 0.15, 0.8, 80, 10, 1e-3⟩

/-- One Euler-Maruyama step of the BGTCSLite oscillator.  State is
(velocity, position, running mean-square of the drive); input is
(previous drive sample, previous velocity-noise increment). -/
noncomputable def bgtcsStep (dt alpha inhibition base_damp omega coupling : ℝ)
    (st : ℝ × ℝ × ℝ) (inp : ℝ × ℝ) : ℝ × ℝ × ℝ :=
  let rms_sq := alpha * inp.1 ^ 2 + (1 - alpha) * st.2.2
  let eff_damp := base_damp + inhibition * Real.sqrt rms_sq
  let a := -eff_damp * st.1 - omega ^ 2 * st.2.1 + coupling * inp.1
  let v := st.1 + dt * a + inp.2
  let z := st.2.1 + dt * v
  (v, z, rms_sq)

/-- Embeds BGTCSLite.simulate.  Raises ValueError on an empty time grid (the
moving_rms convolution rejects an empty input); otherwise returns the latent
trajectory together with the advanced generator. -/
noncomputable def BGTCSLite.simulate (m : BGTCSLite) (t : List ℝ)
    (stimulation : List (List ℝ)) (patient : PatientParams) (g : Rng) :
    Except PyError (LatentState × Rng) :=
  if t.length = 0 then .error .valueError
  else
    let drive_in := stimulation.map fun row => row.getD 0 0
    let n := t.length
    let omega := 2 * Real.pi * (patient.brain.natural_freq_hz.getD m.natural_freq_hz)
    let damping := patient.brain.damping.getD m.damping
    let coupling := patient.brain.coupling.getD m.coupling
    let inhibition := patient.brain.inhibition.getD m.inhibition
    let drive_noise_std := patient.brain.drive_noise_std.getD m.drive_noise_std
    let dt := if 1 < n then meanDiff t else m.dt_hint
    let draws := g.take n
    let noise_drive := draws.1.map fun x => x * (drive_noise_std * Real.sqrt dt)
    let alpha := 1 - Real.exp (-dt / 0.02)
    let base_damp := 2 * damping * omega
    let traj := (drive_in.dropLast.zip noise_drive.dropLast).scanl
      (bgtcsStep dt alpha inhibition base_damp omega coupling) (0, 0, 0)
    let z := traj.map fun s => s.2.1
    let window : ℤ := ⌊0.25 / max dt 1e-6⌋
    .ok (⟨t, z.map fun x => [x], moving_rms z (max 2 window), drive_in⟩, draws.2)

/-! ## sim/periphery/mixins.py and sim/periphery/springmass_6dof.py -/

/-- Embeds stable_second_order_mats from sim/periphery/mixins.py.  The returned
matrices are diagonal with a single repeated entry, so they are modelled by the
pair of scalars (position coefficient, velocity coefficient). -/
noncomputable def stable_second_order_mats (freq_hz damping : ℝ) : ℝ × ℝ :=
  let omega := 2 * Real.pi * freq_hz
  (-(omega ^ 2), -2 * damping * omega)

/-- SpringMass3D constructor parameters (sim/periphery/springmass_6dof.py). -/
structure SpringMass3D where
  freq_hz : ℝ
  damping : ℝ
  gain : ℝ

/-- The SpringMass3D defaults from its constructor signature. -/
noncomputable def SpringMass3D.default : SpringMass3D := ⟨4.5, 0.7, 1⟩

/-- Mix-vector handling of SpringMass3D.simulate: keep the first three entries,
or pad with 0.1 up to length three. -/
def mixVec (mix : List ℝ) : Vec3 :=
  if 3 ≤ mix.length then (mix.getD 0 0, mix.getD 1 0, mix.getD 2 0)
  else (mix.getD 0 0.1, mix.getD 1 0.1, mix.getD 2 0.1)

/-- The explicit integration loop of SpringMass3D.simulate: from the current
position and velocity and the remaining drive samples, produce the position,
velocity and loop-computed acceleration trajectories. -/
noncomputable def springTraj (a_pos a_vel gain dt : ℝ) (mix : Vec3) :
    Vec3 → Vec3 → List ℝ → List Vec3 × List Vec3 × List Vec3
  | p, v, [] => ([p], [v], [])
  | p, v, d :: ds =>
    let acc := vadd (vadd (vsmul a_pos p) (vsmul a_vel v)) (vsmul (gain * d) mix)
    let v2 := vadd v (vsmul dt acc)
    let p2 := vadd p (vsmul dt v2)
    let rest := springTraj a_pos a_vel gain dt mix p2 v2 ds
    (p :: rest.1, v :: rest.2.1, acc :: rest.2.2)

/-- Embeds SpringMass3D.simulate.  The generator is threaded but unused, as in
the source.  The final acceleration row repeats the previous one (n above 1) or
stays at the zero initialization (n equal to 1); for an empty grid the source
would fail on a negative index, but the simulator never reaches this model with
an empty grid because the brain stage errors first. -/
noncomputable def SpringMass3D.simulate (sm : SpringMass3D) (latent : LatentState)
    (patient : PatientParams) (dt : ℝ) (g : Rng) : KinematicState × Rng :=
  let freq := patient.periphery.freq_hz.getD sm.freq_hz
  let damping := patient.periphery.damping.getD sm.damping
  let gain := patient.periphery.gain.getD sm.gain
  let ab := stable_second_order_mats freq (max damping 1e-4)
  let mix := mixVec (patient.periphery.mix.getD [1, 0.6, 0.3])
  let drive := latent.drive.map fun row => row.getD 0 0
  let traj := springTraj ab.1 ab.2 gain dt mix (0, 0, 0) (0, 0, 0) drive.dropLast
  let accLoop := traj.2.2
  let acc := if accLoop.isEmpty then [((0 : ℝ), (0 : ℝ), (0 : ℝ))]
    else accLoop ++ [accLoop.getLastD (0, 0, 0)]
  (⟨latent.t, traj.1, traj.2.1, acc⟩, g)

/-! ## sim/sensor/noise.py and sim/sensor/imu.py -/

/-- IMUModel constructor parameters (sim/sensor/imu.py); the noise_std field is
the standard deviation held by its GaussianNoiseModel. -/
structure IMUModel where
  noise_std : ℝ
  bias_std : ℝ
  drift_per_s : ℝ

/-- The IMUModel defaults from its constructor signature. -/
noncomputable def IMUModel.default : IMUModel := ⟨0.02, 0.01, 0.001⟩

/-- Embeds IMUModel.observe: stride subsampling to the sensor rate, then, when
noise is enabled, Gaussian measurement noise on all channels, a one-time bias
on position, and a linear drift proportional to elapsed time.  Each noisy draw
goes through numpy normal, which raises ValueError on a negative scale: the
bias draw rejects a negative bias_std first, then the channel noise draws
reject a negative noise_std. -/
noncomputable def IMUModel.observe (m : IMUModel) (kin : KinematicState)
    (config : RolloutConfig) (patient : PatientParams) (g : Rng) :
    Except PyError (MeasurementOutput × Rng) :=
  let target_dt := 1 / config.imu_sample_rate_hz
  let stride := max 1 (pyRound (target_dt / config.dt)).toNat
  let idx := (List.range kin.t.length).filter fun i => i % stride = 0
  let pos0 := idx.map fun i => kin.pos.getD i (0, 0, 0)
  let vel0 := idx.map fun i => kin.vel.getD i (0, 0, 0)
  let acc0 := idx.map fun i => kin.acc.getD i (0, 0, 0)
  let out_t := idx.map fun i => kin.t.getD i 0
  if config.include_noise then
    let noise_std := patient.sensor.noise_std.getD m.noise_std
    let bias_std := patient.sensor.bias_std.getD m.bias_std
    let drift := patient.sensor.drift_per_s.getD m.drift_per_s
    if bias_std < 0 then .error .valueError
    else if noise_std < 0 then .error .valueError
    else
      let k := idx.length
      let biasDraw := g.normalVec3List bias_std 1
      let bias := biasDraw.1.getD 0 (0, 0, 0)
      let driftTrace := out_t.map fun tv => (tv - out_t.headD 0) * drift
      let posNoise := biasDraw.2.normalVec3List noise_std k
      let velNoise := posNoise.2.normalVec3List noise_std k
      let accNoise := velNoise.2.normalVec3List noise_std k
      let pos := ((pos0.zipWith vadd posNoise.1).zipWith vadd (List.replicate k bias)).zipWith
        (fun p d => vadd p (d, d, d)) driftTrace
      let vel := vel0.zipWith vadd velNoise.1
      let acc := acc0.zipWith vadd accNoise.1
      .ok (⟨out_t, pos, vel, acc,
        ⟨config.schema_version, config.imu_sample_rate_hz, out_t.length⟩⟩, accNoise.2)
  else
    .ok (⟨out_t, pos0, vel0, acc0,
      ⟨config.schema_version, config.imu_sample_rate_hz, out_t.length⟩⟩, g)

/-! ## sim/simulator.py -/

/-- A Simulator instance: the four sub-models it is composed of. -/
structure Simulator where
  encoder : WaveformEncoder
  brain : BGTCSLite
  periphery : SpringMass3D
  measurement : IMUModel

/-- Embeds Simulator.run from sim/simulator.py: when no generator is passed, one
is created from the seed (from OS entropy when the seed is None); then encode,
brain, periphery and sensor stages run in order with the generator threaded
through them.  The entropy argument models the OS randomness that numpy would
consume for default_rng(None); it is untouched when a seed is given. -/
noncomputable def Simulator.run (sim : Simulator) (entropy : ℕ) (stim_params : StimParams)
    (patient : PatientParams) (config : RolloutConfig) (seed : Option ℕ)
    (rng0 : Option Rng) : Except PyError MeasurementOutput :=
  let rng := match rng0 with
    | some g => g
    | none => default_rng entropy seed
  let t := config.t
  let stimulation := sim.encoder.encode t stim_params
  match sim.brain.simulate t stimulation patient rng with
  | .error e => .error e
  | .ok lat =>
    let kin := sim.periphery.simulate lat.1 patient config.dt lat.2
    match sim.measurement.observe kin.1 config patient kin.2 with
    | .error e => .error e
    | .ok out => .ok out.1

/-! ## sim/scripts/sanity_checks.py -/

/-- TreatmentGoals from sim/api/treatment_goals.py. -/
structure TreatmentGoals where
  w_diag : ℝ
  w_nms : ℝ
  w_dur : ℝ
  patient_id : Option String
  notes : Option String

/-- Embeds positive from sim/cohort/transforms.py. -/
noncomputable def positive (x minimum : ℝ) : ℝ := max x minimum

/-- Embeds clamp from sim/cohort/transforms.py. -/
noncomputable def clamp (x lo hi : ℝ) : ℝ := min (max x lo) hi

/-- Embeds stable_damping from sim/cohort/transforms.py. -/
noncomputable def stable_damping (x : ℝ) : ℝ := clamp x 0.05 3.0

/-- The field names of the PatientParams dataclass as declared in
sim/api/types.py (brain, periphery, sensor and nothing else). -/
def patientParamsFields : List String := ["brain", "periphery", "sensor"]

/-- The keyword-argument names used at the PatientParams construction site
inside sample_patient_params in sim/cohort/sampling.py. -/
def samplingCallKwargs : List String := ["brain", "periphery", "sensor", "treatment_goals"]

/-- Python dataclass call semantics: the call succeeds only when every keyword
argument names a declared field; otherwise init raises TypeError. -/
def kwargsValid (kwargs fields : List String) : Bool :=
  kwargs.all fun k => fields.contains k

/-- One iteration of the sampling loop in sample_patient_params: draw the brain,
periphery and sensor parameter values in source order, then attempt the
PatientParams construction with the keyword arguments the source passes. -/
noncomputable def samplePatientOnce (g : Rng) :
    Except PyError (PatientParams × Rng) :=
  let d1 := g.normal1 5.0 1.0
  let d2 := d1.2.lognormal1 (-0.2) 0.4
  let d3 := d2.2.normal1 0.8 0.2
  let brain : BrainMap :=
    ⟨some (clamp d1.1 2.5 9.0), some (stable_damping d2.1), some (positive d3.1 0.1),
      none, none⟩
  let d4 := d3.2.normal1 4.5 0.8
  let d5 := d4.2.lognormal1 (-0.3) 0.4
  let d6 := d5.2.normal1 1.0 0.2
  let d7 := d6.2.normalVec3List 0.2 1
  let mixMean : Vec3 := (d7.1.getD 0 (0, 0, 0))
  let periphery : PeripheryMap :=
    ⟨some (clamp d4.1 2.0 8.0), some (stable_damping d5.1), some (positive d6.1 0.2),
      some [1.0 + mixMean.1, 0.6 + mixMean.2.1, 0.3 + mixMean.2.2]⟩
  let d8 := d7.2.lognormal1 (-3.8) 0.3
  let d9 := d8.2.lognormal1 (-4.2) 0.3
  let d10 := d9.2.lognormal1 (-6.0) 0.5
  let sensor : SensorMap :=
    ⟨some (positive d8.1 0.001), some (positive d9.1 0.0005), some (positive d10.1 1e-5)⟩
  if kwargsValid samplingCallKwargs patientParamsFields then
    .ok (⟨brain, periphery, sensor⟩, d10.2)
  else .error .typeError

/-- The sampling loop of sample_patient_params over n patients. -/
noncomputable def samplePatientLoop (g : Rng) : ℕ → Except PyError (List PatientParams × Rng)
  | 0 => .ok ([], g)
  | n + 1 =>
    match samplePatientOnce g with
    | .error e => .error e
    | .ok pg =>
      match samplePatientLoop pg.2 n with
      | .error e => .error e
      | .ok rest => .ok (pg.1 :: rest.1, rest.2)

/-- Embeds sample_patient_params from sim/cohort/sampling.py: sample n patients
from the population distributions, attaching the optional treatment goals to
each constructed PatientParams via the treatment_goals keyword argument.  The
goals value itself can never be stored, because the PatientParams dataclass
declares no such field; the construction call is what consumes it. -/
noncomputable def sample_patient_params (g : Rng) (n : ℕ)
    (treatment_goals : Option TreatmentGoals) : Except PyError (List PatientParams) :=
  match samplePatientLoop g n with
  | .error e => .error e
  | .ok r => .ok r.1

/-! ## backend/loss/loss.py -/

/-- Embeds acc_rms from backend/loss/loss.py: root-mean-square of the
accelerometer magnitude across all axes and time. -/
noncomputable def acc_rms (acc : List Vec3) : ℝ :=
  Real.sqrt (((acc.map vnormSq).sum) / (3 * acc.length))

/-- The analytical severity mapping of calculate_loss (backend/loss/loss.py,
lines 536-540): zero when the baseline RMS is below 1e-12, otherwise one minus
twice the clipped suppression ratio. -/
noncomputable def analytical_suppression_loss (rms_baseline rms_stim : ℝ) : ℝ :=
  if rms_baseline < 1e-12 then 0
  else 1 - 2 * clip ((rms_baseline - rms_stim) / rms_baseline) 0 1

/-- The zero-amplitude baseline parameters built by the analytical backend of
calculate_loss: amplitudes zeroed, other rows copied. -/
def zero_stim (stim : StimParams) : StimParams :=
  ⟨stim.amp.map fun _ => 0, stim.freq, stim.pw, stim.phase⟩

/-- The analytical branch of calculate_loss (backend/loss/loss.py lines
492-540), given the patient the preceding sampling step would have supplied:
run the zero-amplitude baseline and the stimulated rollout with generators
seeded identically at seed + 1, take the acceleration RMS of each, and map the
suppression ratio to the severity scale.  In the program this branch is
unreachable, because the sampling step at line 477 raises before it. -/
noncomputable def analytical_backend (sim : Simulator) (entropy : ℕ)
    (stim : StimParams) (patient : PatientParams) (cfg : RolloutConfig) (seed : ℕ) :
    Except PyError ℝ :=
  let sim_seed := seed + 1
  match sim.run entropy (zero_stim stim) patient cfg none (some ⟨sim_seed, 0⟩) with
  | .error e => .error e
  | .ok baseline =>
    match sim.run entropy stim patient cfg none (some ⟨sim_seed, 0⟩) with
    | .error e => .error e
    | .ok stimulated =>
      .ok (analytical_suppression_loss (acc_rms baseline.acc) (acc_rms stimulated.acc))

/-- Embeds calculate_loss (backend/loss/loss.py lines 421-540) with the
analytical backend selected: validate the parameter matrix shape
(to_parameter_matrix, lines 33-39), then unconditionally sample one patient
(line 477: sample_patient_params(rng, n=1)[0] with rng seeded from the
config), reattach explicit treatment goals by rebuilding PatientParams with
the treatment_goals keyword when goals are given (lines 480-487), and only
then enter the analytical branch.  The sampling step raises TypeError on
every call (the PatientParams dataclass lacks the treatment_goals field), so
the branches after it never execute. -/
noncomputable def calculate_loss (sim : Simulator) (entropy : ℕ) (params : NpArray)
    (treatment_goals : Option TreatmentGoals) (cfg : RolloutConfig) (seed : ℕ) :
    Except PyError ℝ :=
  if params.shape.length = 2 ∧ params.shape.headD 0 = 4 then
    if params.shape.getD 1 0 = 0 then .error .valueError
    else
      match sample_patient_params (default_rng entropy (some seed)) 1 none with
      | .error e => .error e
      | .ok patients =>
        match patients with
        | [] => .error .indexError
        | patient :: _ =>
          match (match treatment_goals with
            | none => Except.ok patient
            | some _ =>
              if kwargsValid samplingCallKwargs patientParamsFields then Except.ok patient
              else Except.error PyError.typeError) with
          | .error e => .error e
          | .ok patient2 =>
            match StimParams.from_matrix params with
            | .error e => .error e
            | .ok stim => analytical_backend sim entropy stim patient2 cfg seed
  else .error .valueError

/-- Embeds normalize_weights from backend/loss/loss.py. -/
noncomputable def normalize_weights (w_motor w_non_motor w_duration : ℝ) : ℝ × ℝ × ℝ :=
  let total := max 1e-9 (w_motor + w_non_motor + w_duration)
  (w_motor / total, w_non_motor / total, w_duration / total)

/-- The composite treatment-goals blend of calculate_loss (backend/loss/loss.py,
lines 626-631): the weighted component sum clipped into the severity range. -/
noncomputable def composite_loss (w_motor w_non_motor w_duration motor non_motor duration : ℝ) :
    ℝ :=
  clip (w_motor * motor + w_non_motor * non_motor + w_duration * duration) (-1) 1

/-! ## backend/Bayes.py

The staged backend/Bayes.py does not compile: the block at lines 148-156 sits
at column 0 in the middle of the body of model (lines 105-438 as intended), so
Python parses model as ending at line 146 and treats lines 149-438 as
module-level code; the return statement at line 252 is then outside any
function and importing the module raises SyntaxError.  That layout is modelled
by bayesModuleStmts and firstReturnOutside below.  The definitions modelCore,
greedySelect, fillSelect, selectBatch and coalesce embed the statements of
lines 208-310 and 391-429 as the text prescribes them; in the staged program
those statements belong to the dead module-level block, so these definitions
record what the code says, not behavior any import can reach. -/

/-- One statement of a Python module in the indentation model: its source
line, its indentation depth in tabs, whether it is a def header, and whether
it is a return statement.  Comments and blank lines are not statements and do
not appear. -/
structure PyStmt where
  line : ℕ
  indent : ℕ
  isDef : Bool
  isReturn : Bool

/-- Python function-extent rule on a statement sequence: after a def header,
statements stay inside the function while their indentation exceeds the
header's, and the first statement at the header's indentation or less ends the
body.  A return statement reached with no enclosing function is the
SyntaxError Python reports at compile time (return outside function); this
scanner yields the line of the first such return.  No def in backend/Bayes.py
nests inside another, so a single active header suffices. -/
def firstReturnOutside : Option ℕ → List PyStmt → Option ℕ
  | _, [] => none
  | none, s :: rest =>
    if s.isReturn then some s.line
    else firstReturnOutside (if s.isDef then some s.indent else none) rest
  | some d, s :: rest =>
    if d < s.indent then firstReturnOutside (some d) rest
    else if s.isReturn then some s.line
    else firstReturnOutside (if s.isDef then some s.indent else none) rest

/-- The statements of the body of the def headed at the given line, as Python
parses them: the following statements while their indentation exceeds the
header's. -/
def defBodyAfter (defLine defIndent : ℕ) (stmts : List PyStmt) : List PyStmt :=
  (stmts.dropWhile fun s => s.line ≤ defLine).takeWhile fun s => defIndent < s.indent

/-- The statement skeleton of backend/Bayes.py that determines the extent of
model and the placement of its return statements (line numbers and tab depths
transcribed from the file): the two helper defs with their returns, the def
model header at line 105 with body statements through line 146, the column-0
statement at line 149 that ends model, and the following statements of the
intended body, including the returns at lines 252, 277 and 433, which Python
parses at module level. -/
def bayesModuleStmts : List PyStmt := [
  ⟨16, 0, false, false⟩,
  ⟨56, 0, true, false⟩,
  ⟨67, 1, false, false⟩,
  ⟨79, 2, false, true⟩,
  ⟨86, 1, false, true⟩,
  ⟨89, 0, true, false⟩,
  ⟨94, 1, false, false⟩,
  ⟨102, 1, false, true⟩,
  ⟨105, 0, true, false⟩,
  ⟨126, 1, false, false⟩,
  ⟨130, 1, false, false⟩,
  ⟨146, 2, false, false⟩,
  ⟨149, 0, false, false⟩,
  ⟨150, 1, false, false⟩,
  ⟨153, 2, false, false⟩,
  ⟨160, 1, false, false⟩,
  ⟨203, 1, false, false⟩,
  ⟨252, 2, false, true⟩,
  ⟨274, 1, false, false⟩,
  ⟨277, 2, false, true⟩,
  ⟨433, 1, false, true⟩]

/-- The outcome of the data-preparation stage of model in backend/Bayes.py.
The fallback constructor is the early return of lines 274-277: next_params is
the most recent observed row and both the surrogate model and the bounds are
None.  The fitted constructor carries the feature matrix and target vector that
reach the Gaussian-process fit. -/
inductive ModelResult
  | fallback (next_params : List ℝ)
  | fitted (X : List (List ℝ)) (y : List ℝ)

/-- The distinct parameter rows of a history in order of first appearance.
The source groups with pandas groupby, which orders keys by sorting; only the
multiset of groups matters for every property stated here. -/
noncomputable def uniqueKeys : List (List ℝ) → List (List ℝ)
  | [] => []
  | k :: rest => k :: uniqueKeys (rest.filter fun x => x ≠ k)
termination_by l => l.length
decreasing_by
  simp only [List.length_cons]
  exact Nat.lt_succ_of_le (List.length_filter_le _ _)

/-- Embeds the duplicate-row coalescing of model (backend/Bayes.py lines
266-271): group equal parameter rows and average their severities. -/
noncomputable def coalesce (rows : List (List ℝ × ℝ)) : List (List ℝ × ℝ) :=
  (uniqueKeys (rows.map Prod.fst)).map fun k =>
    (k, listMean ((rows.filter fun r => r.1 = k).map Prod.snd))

/-- The data-preparation statements of backend/Bayes.py lines 208-310, as the
text prescribes them for a history whose rows carry the canonical parameter
columns plus a severity value.  In the staged file these lines lie in the dead
module-level block (see bayesModuleStmts): no import of the module can reach
them.  As written: an empty source raises ValueError; duplicate rows are
coalesced; histories shorter than fallback_min_samples return the most recent
row with no surrogate; otherwise the statements produce the feature matrix and
target vector handed to the Gaussian-process fit.  Rows are fully observed
here, so the column-mean imputation of lines 279-286 is the identity.  Line
290 of the source re-reads the severity column after the coalescing, which is
reproduced faithfully below. -/
noncomputable def modelCore (history : List (List ℝ × ℝ)) (fallback_min_samples : ℕ) :
    Except PyError ModelResult :=
  if history.isEmpty then .error .valueError
  else
    let X := history.map Prod.fst
    let y := history.map Prod.snd
    let c := if 1 < X.length then (coalesce history).unzip else (X, y)
    if c.2.length < fallback_min_samples then
      .ok (.fallback ((history.getLast?.map Prod.fst).getD []))
    else
      .ok (.fitted c.1 (history.map Prod.snd))

/-- Normalized Euclidean distance between two candidate rows
(numpy linalg.norm of the difference). -/
noncomputable def normDist (a b : List ℝ) : ℝ :=
  Real.sqrt ((a.zipWith (fun x y => (x - y) ^ 2) b).sum)

/-- The greedy diversity-constrained selection loop of model (backend/Bayes.py
lines 395-412): walk the score-sorted candidate order, keep a candidate only if
it is at least min_d away from every observed point and every already selected
candidate, and stop once the effective batch size is reached. -/
noncomputable def greedySelect (candN : List (List ℝ)) (obsN : List (List ℝ)) (min_d : ℝ)
    (kEff : ℕ) : List ℕ → List ℕ → List ℕ
  | [], sel => sel
  | idx :: rest, sel =>
    let v := candN.getD idx []
    if ∃ o ∈ obsN, normDist o v < min_d then
      greedySelect candN obsN min_d kEff rest sel
    else if ∃ j ∈ sel, normDist (candN.getD j []) v < min_d then
      greedySelect candN obsN min_d kEff rest sel
    else
      if kEff ≤ (sel ++ [idx]).length then sel ++ [idx]
      else greedySelect candN obsN min_d kEff rest (sel ++ [idx])

/-- The relaxation loop of model (backend/Bayes.py lines 416-422): while the
batch is not full, append the best-scored candidate not yet selected; stop when
every candidate is selected.  The source loop adds one candidate per pass or
terminates, so a fuel of the effective batch size is enough; the none branch
with a partial selection corresponds to a state the source can only reach when
the candidate order carries duplicate indices (argsort never produces them). -/
noncomputable def fillSelect (order : List ℕ) (kEff : ℕ) : ℕ → List ℕ → List ℕ
  | 0, sel => sel
  | fuel + 1, sel =>
    if sel.length < kEff then
      match order.find? (fun i => ! sel.contains i) with
      | some i =>
        if (sel ++ [i]).length = order.length then sel ++ [i]
        else fillSelect order kEff fuel (sel ++ [i])
      | none => sel
    else sel

/-- The batch-selection statements of backend/Bayes.py lines 391-429 as the
text prescribes them (in the staged file they lie in the dead module-level
block, see bayesModuleStmts): greedy diversity-constrained selection, the
emergency re-seeding with the single best candidate, and the score-order
relaxation fill.  Indexing the best candidate of an empty pool raises
IndexError. -/
noncomputable def selectBatch (candN : List (List ℝ)) (obsN : List (List ℝ))
    (order : List ℕ) (min_distance_frac : ℝ) (batch_size : ℕ) :
    Except PyError (List ℕ) :=
  let min_d := max 0 min_distance_frac
  let kEff := max 1 batch_size
  let sel := greedySelect candN obsN min_d kEff order []
  match sel, order with
  | [], [] => .error .indexError
  | [], i :: _ => .ok (fillSelect order kEff kEff [i])
  | s :: ss, _ => .ok (fillSelect order kEff kEff (s :: ss))

/-- The suggested parameter batch assembled from the selected candidate indices
(backend/Bayes.py lines 426-429). -/
def next_params_batch (cand : List (List ℝ)) (sel : List ℕ) : List (List ℝ) :=
  sel.map fun i => cand.getD i []

/-! ## Expected improvement (backend/Bayes.py lines 89-102) -/

/-- Standard normal probability density. -/
noncomputable def normPdf (z : ℝ) : ℝ := Real.exp (-(z ^ 2) / 2) / Real.sqrt (2 * Real.pi)

/-- Standard normal cumulative distribution function. -/
noncomputable def normCdf (z : ℝ) : ℝ := ∫ u in Set.Iic z, normPdf u

/-- One component of expected_improvement from backend/Bayes.py: the
minimization-form EI, with the sigma-zero entries overwritten to zero exactly
as the source does after the vectorized computation. -/
noncomputable def eiElem (mu sigma y_best : ℝ) : ℝ :=
  if sigma = 0 then 0
  else (y_best - mu) * normCdf ((y_best - mu) / sigma) +
    sigma * normPdf ((y_best - mu) / sigma)

/-- Embeds expected_improvement from backend/Bayes.py elementwise over the
flattened mean and standard-deviation vectors. -/
noncomputable def expected_improvement (mu sigma : List ℝ) (y_best : ℝ) : List ℝ :=
  List.zipWith (fun m s => eiElem m s y_best) mu sigma

/-! ## Concrete instances used by the witnesses and counterexamples -/

/-- The given rollout configuration with the noise stage forced on. -/
def withNoise (cfg : RolloutConfig) : RolloutConfig :=
  ⟨cfg.dt, cfg.duration_s, cfg.imu_sample_rate_hz, true, cfg.schema_version⟩

/-- Concrete two-row history. -/
noncomputable def historyTwoRows : List (List ℝ × ℝ) := [([1, 2], 3), ([4, 5], 6)]

/-- A four-row history whose first two rows share identical parameters. -/
noncomputable def historyDup : List (List ℝ × ℝ) :=
  [([1, 2, 3, 4], 5), ([1, 2, 3, 4], 7), ([5, 6, 7, 8], 1), ([9, 10, 11, 12], 2)]

/-- A three-step rollout configuration: unit time step, two seconds, unit
sensor rate, noise disabled. -/
def cfgC8 : RolloutConfig := ⟨1, 2, 1, false, "sim.v1"⟩

/-- The default simulator composition of sim/factory.py with sum reduction. -/
noncomputable def simC8 : Simulator :=
  ⟨⟨.sum⟩, BGTCSLite.default, SpringMass3D.default, IMUModel.default⟩

theorem clip_le_hi (x lo hi : ℝ) : clip x lo hi ≤ hi := min_le_right _ _

theorem lo_le_clip (x lo hi : ℝ) (h : lo ≤ hi) : lo ≤ clip x lo hi :=
  le_min (le_max_right _ _) h

theorem fmod_nonneg (x : ℝ) {p : ℝ} (hp : 0 < p) : 0 ≤ fmod x p := by
  have h := Int.sub_floor_div_mul_nonneg x hp
  simpa [fmod, mul_comm] using h

theorem fmod_lt (x : ℝ) {p : ℝ} (hp : 0 < p) : fmod x p < p := by
  have h := Int.sub_floor_div_mul_lt x hp
  simpa [fmod, mul_comm] using h

theorem uniqueKeys_length_le (l : List (List ℝ)) : (uniqueKeys l).length ≤ l.length := by
  have H : ∀ (n : ℕ) (l : List (List ℝ)), l.length ≤ n →
      (uniqueKeys l).length ≤ l.length := by
    intro n
    induction n with
    | zero =>
      intro l hl
      have hnil : l = [] := List.length_eq_zero.mp (Nat.le_zero.mp hl)
      simp [hnil, uniqueKeys]
    | succ n ih =>
      intro l hl
      cases l with
      | nil => simp [uniqueKeys]
      | cons k rest =>
        rw [uniqueKeys]
        have h2 : (rest.filter fun x => x ≠ k).length ≤ rest.length :=
          List.length_filter_le _ _
        have hrest : rest.length ≤ n := by
          simpa using Nat.lt_succ_iff.mp (by simpa using Nat.lt_of_lt_of_le (Nat.lt_succ_of_le le_rfl) hl)
        have h1 := ih (rest.filter fun x => x ≠ k) (le_trans h2 hrest)
        simp only [List.length_cons]
        omega
  exact H l.length l le_rfl

/-! ## Claim C9: edge cases of square_pulse_train -/

/-- C9: for every time grid, amplitude and phase, square_pulse_train returns
the all-zero signal when the frequency is nonpositive, the constant amplitude
signal when the pulse width reaches the period, and the all-zero signal when
the pulse width is nonpositive. -/
theorem claim_C9 (t : List ℝ) (amp freq_hz pulse_width_s phase : ℝ) :
    (freq_hz ≤ 0 → square_pulse_train t amp freq_hz pulse_width_s phase = t.map fun _ => 0) ∧
    (0 < freq_hz → 1 / freq_hz ≤ pulse_width_s →
      square_pulse_train t amp freq_hz pulse_width_s phase = t.map fun _ => amp) ∧
    (pulse_width_s ≤ 0 →
      square_pulse_train t amp freq_hz pulse_width_s phase = t.map fun _ => 0) := by
  refine ⟨fun hf => ?_, fun hf hw => ?_, fun hw => ?_⟩
  · simp [square_pulse_train, hf]
  · have hfneg : ¬ freq_hz ≤ 0 := not_le.mpr hf
    have hper : 0 < 1 / freq_hz := by positivity
    rw [square_pulse_train, if_neg hfneg]
    rcases ht0 : t.length with _ | m
    · have : t = [] := List.length_eq_zero.mp ht0
      simp [this]
    · rcases m with _ | m
      · simp only [ht0, if_neg (by omega : ¬ (1 = 0)), if_pos rfl]
        refine List.map_congr_left fun x _ => ?_
        have hcond : fmod (x + phase / (2 * Real.pi * freq_hz)) (1 / freq_hz) < pulse_width_s :=
          lt_of_lt_of_le (fmod_lt _ hper) hw
        exact if_pos hcond
      · simp only [ht0, if_neg (by omega : ¬ (m + 2 = 0)), if_neg (by omega : ¬ (m + 2 = 1))]
        have hw0 : (0 : ℝ) ≤ pulse_width_s := le_trans (le_of_lt hper) hw
        have hclip : clip pulse_width_s 0 (1 / freq_hz) = 1 / freq_hz := by
          rw [clip, max_eq_left hw0, min_eq_right hw]
        rw [hclip, if_neg (not_le.mpr hper), if_pos le_rfl]
  · rcases le_or_lt freq_hz 0 with hf | hf
    · simp [square_pulse_train, hf]
    · have hfneg : ¬ freq_hz ≤ 0 := not_le.mpr hf
      have hper : 0 < 1 / freq_hz := by positivity
      rw [square_pulse_train, if_neg hfneg]
      rcases ht0 : t.length with _ | m
      · have : t = [] := List.length_eq_zero.mp ht0
        simp [this]
      · rcases m with _ | m
        · simp only [ht0, if_neg (by omega : ¬ (1 = 0)), if_pos rfl]
          refine List.map_congr_left fun x _ => ?_
          have hcond : ¬ fmod (x + phase / (2 * Real.pi * freq_hz)) (1 / freq_hz) < pulse_width_s :=
            not_lt.mpr (le_trans hw (fmod_nonneg _ hper))
          exact if_neg hcond
        · simp only [ht0, if_neg (by omega : ¬ (m + 2 = 0)), if_neg (by omega : ¬ (m + 2 = 1))]
          have hclip : clip pulse_width_s 0 (1 / freq_hz) = 0 := by
            rw [clip, max_eq_right hw, min_eq_left (le_of_lt hper)]
          rw [hclip, if_pos le_rfl]

/-! ## Claim C6: nonnegativity of the expected-improvement acquisition -/

theorem normPdf_nonneg (z : ℝ) : 0 ≤ normPdf z := by
  rw [normPdf]
  positivity

theorem integrable_normPdf : MeasureTheory.Integrable normPdf := by
  have h := integrable_exp_neg_mul_sq (by norm_num : (0 : ℝ) < 1 / 2)
  have hfun : normPdf = fun z : ℝ => Real.exp (-(1 / 2) * z ^ 2) *
      (Real.sqrt (2 * Real.pi))⁻¹ := by
    funext z
    rw [normPdf, div_eq_mul_inv]
    ring_nf
  rw [hfun]
  exact h.mul_const _

theorem integrable_neg_mul_normPdf :
    MeasureTheory.Integrable (fun t : ℝ => -t * normPdf t) := by
  have h := integrable_mul_exp_neg_mul_sq (by norm_num : (0 : ℝ) < 1 / 2)
  have h2 := (h.mul_const (Real.sqrt (2 * Real.pi))⁻¹).neg
  refine h2.congr (Filter.Eventually.of_forall fun t => ?_)
  unfold normPdf
  simp only [Pi.neg_apply]
  rw [div_eq_mul_inv]
  ring_nf

theorem hasDerivAt_normPdf (z : ℝ) : HasDerivAt normPdf (-z * normPdf z) z := by
  have h1 : HasDerivAt (fun t : ℝ => -(t ^ 2) / 2) (-z) z := by
    have h := ((hasDerivAt_pow 2 z).div_const 2).neg
    have hfun : (fun x : ℝ => -(x ^ 2 / 2)) = fun x : ℝ => -(x ^ 2) / 2 := by
      funext x
      ring
    rw [hfun] at h
    convert h using 1
    norm_num
  have h2 := (h1.exp).div_const (Real.sqrt (2 * Real.pi))
  have hfun2 : (fun t : ℝ => Real.exp (-(t ^ 2) / 2) / Real.sqrt (2 * Real.pi)) = normPdf := by
    funext t
    rw [normPdf]
  rw [hfun2] at h2
  convert h2 using 1
  rw [normPdf]
  ring

theorem tendsto_normPdf_atBot : Filter.Tendsto normPdf Filter.atBot (nhds 0) := by
  have h1 : Filter.Tendsto (fun t : ℝ => t ^ 2) Filter.atBot Filter.atTop := by
    refine Filter.Tendsto.congr (fun x => sq_abs x) ?_
    exact (Filter.tendsto_pow_atTop two_ne_zero).comp Filter.tendsto_abs_atBot_atTop
  have h2 : Filter.Tendsto (fun t : ℝ => -(t ^ 2)) Filter.atBot Filter.atBot :=
    Filter.tendsto_neg_atTop_atBot.comp h1
  have h3 : Filter.Tendsto (fun t : ℝ => -(t ^ 2) / 2) Filter.atBot Filter.atBot :=
    h2.atBot_div_const (by norm_num)
  have h4 : Filter.Tendsto (fun t : ℝ => Real.exp (-(t ^ 2) / 2)) Filter.atBot (nhds 0) :=
    Real.tendsto_exp_atBot.comp h3
  have h5 := h4.div_const (Real.sqrt (2 * Real.pi))
  rw [zero_div] at h5
  refine Filter.Tendsto.congr (fun t => ?_) h5
  simp only [normPdf]

theorem integral_neg_mul_normPdf (z : ℝ) :
    ∫ t in Set.Iic z, -t * normPdf t = normPdf z := by
  have h : ∫ t in Set.Iic z, -t * normPdf t = normPdf z - 0 :=
    MeasureTheory.integral_Iic_of_hasDerivAt_of_tendsto'
      (fun x _ => hasDerivAt_normPdf x)
      integrable_neg_mul_normPdf.integrableOn
      tendsto_normPdf_atBot
  simpa using h

theorem z_mul_normCdf_add_normPdf_nonneg (z : ℝ) : 0 ≤ z * normCdf z + normPdf z := by
  have hmono : ∫ t in Set.Iic z, -z * normPdf t ≤ ∫ t in Set.Iic z, -t * normPdf t := by
    apply MeasureTheory.setIntegral_mono_on
    · exact (integrable_normPdf.const_mul _).integrableOn
    · exact integrable_neg_mul_normPdf.integrableOn
    · exact measurableSet_Iic
    · intro t ht
      exact mul_le_mul_of_nonneg_right (neg_le_neg ht) (normPdf_nonneg t)
  rw [integral_neg_mul_normPdf] at hmono
  have hconst : ∫ t in Set.Iic z, -z * normPdf t = -z * normCdf z := by
    rw [MeasureTheory.integral_mul_left, normCdf]
  rw [hconst] at hmono
  linarith

theorem eiElem_nonneg (mu sigma y_best : ℝ) (hs : 0 ≤ sigma) :
    0 ≤ eiElem mu sigma y_best := by
  rw [eiElem]
  split
  · exact le_rfl
  · rename_i hne
    have hpos : 0 < sigma := lt_of_le_of_ne hs (Ne.symm hne)
    set z := (y_best - mu) / sigma with hzdef
    have hyb : y_best - mu = sigma * z := by
      rw [hzdef]
      field_simp
    rw [hyb]
    have hkey := z_mul_normCdf_add_normPdf_nonneg z
    have h2 : sigma * 0 ≤ sigma * (z * normCdf z + normPdf z) :=
      mul_le_mul_of_nonneg_left hkey (le_of_lt hpos)
    calc (0 : ℝ) = sigma * 0 := by ring
      _ ≤ sigma * (z * normCdf z + normPdf z) := h2
      _ = sigma * z * normCdf z + sigma * normPdf z := by ring

/-- C6: the expected-improvement acquisition is elementwise nonnegative
whenever every standard deviation is nonnegative, and it is exactly zero at
every index whose standard deviation is zero. -/
theorem claim_C6 (mu sigma : List ℝ) (y_best : ℝ) (hs : ∀ s ∈ sigma, 0 ≤ s) :
    (∀ e ∈ expected_improvement mu sigma y_best, 0 ≤ e) ∧
    (∀ (i : ℕ), i < (expected_improvement mu sigma y_best).length →
      sigma.getD i 1 = 0 → (expected_improvement mu sigma y_best).getD i 1 = 0) := by
  constructor
  · intro e he
    rw [expected_improvement] at he
    rcases List.mem_iff_getElem.mp he with ⟨i, hi, hei⟩
    rw [List.getElem_zipWith] at hei
    have hlen := hi
    rw [List.length_zipWith] at hlen
    have hsig : i < sigma.length := lt_of_lt_of_le hlen (min_le_right _ _)
    have hmem : sigma[i] ∈ sigma := List.getElem_mem _
    rw [← hei]
    exact eiElem_nonneg _ _ _ (hs _ hmem)
  · intro i hi hzero
    rw [expected_improvement] at hi ⊢
    have hlen := hi
    rw [List.length_zipWith] at hlen
    have hmu : i < mu.length := lt_of_lt_of_le hlen (min_le_left _ _)
    have hsig : i < sigma.length := lt_of_lt_of_le hlen (min_le_right _ _)
    rw [List.getD_eq_getElem?_getD, List.getElem?_eq_getElem hi, Option.getD_some,
      List.getElem_zipWith]
    rw [List.getD_eq_getElem?_getD, List.getElem?_eq_getElem hsig, Option.getD_some] at hzero
    rw [hzero, eiElem, if_pos rfl]

/-- C6 witness: concrete singleton vectors with zero standard deviation. -/
theorem claim_C6_witness :
    (∀ s ∈ ([0] : List ℝ), 0 ≤ s) ∧
    (∀ e ∈ expected_improvement [0] [0] 0, 0 ≤ e) ∧
    (expected_improvement [0] [0] 0).getD 0 1 = 0 := by
  have hs : ∀ s ∈ ([0] : List ℝ), (0 : ℝ) ≤ s := by
    intro s hmem
    simp only [List.mem_singleton] at hmem
    simp [hmem]
  have h := claim_C6 [0] [0] 0 hs
  exact ⟨hs, h.1, h.2 0 (by simp [expected_improvement]) (by simp)⟩

/-! ## Claim C10: matrix round trip of StimParams -/

theorem take_drop_quarters (l : List ℝ) (n : ℕ) (hl : l.length = 4 * n) :
    l.take n ++ (l.drop n).take n ++ (l.drop (2 * n)).take n ++ (l.drop (3 * n)).take n =
      l := by
  have e1 : (l.drop (3 * n)).take n = l.drop (3 * n) := by
    apply List.take_of_length_le
    simp only [List.length_drop, hl]
    omega
  have e2 : (l.drop (2 * n)).take n ++ (l.drop (3 * n)).take n = l.drop (2 * n) := by
    rw [e1, (by omega : 3 * n = 2 * n + n), ← List.drop_drop, List.take_append_drop]
  have e4 : (l.drop n).take n ++ ((l.drop (2 * n)).take n ++ (l.drop (3 * n)).take n) =
      l.drop n := by
    rw [e2, (by omega : 2 * n = n + n), ← List.drop_drop, List.take_append_drop]
  calc l.take n ++ (l.drop n).take n ++ (l.drop (2 * n)).take n ++ (l.drop (3 * n)).take n
      = l.take n ++ ((l.drop n).take n ++ ((l.drop (2 * n)).take n ++
          (l.drop (3 * n)).take n)) := by simp [List.append_assoc]
    _ = l.take n ++ l.drop n := by rw [e4]
    _ = l := List.take_append_drop n l

/-- C10: from_matrix followed by as_matrix is the identity on every (4, N)
array, and from_matrix rejects every array that is not 2-dimensional with
first dimension 4. -/
theorem claim_C10 :
    (∀ (a : NpArray) (n : ℕ), a.shape = [4, n] → a.data.length = 4 * n → 1 ≤ n →
      (StimParams.from_matrix a).map StimParams.as_matrix = .ok a) ∧
    (∀ a : NpArray, ¬ (a.shape.length = 2 ∧ a.shape.headD 0 = 4) →
      StimParams.from_matrix a = .error .valueError) := by
  constructor
  · rintro ⟨shape, data⟩ n hshape hdata _
    simp only at hshape hdata
    subst hshape
    rw [StimParams.from_matrix, if_pos (by simp)]
    have hn : ([4, n].getD 1 0) = n := by simp
    rw [hn]
    have l1 : (data.take n).length = n := by
      rw [List.length_take]
      omega
    have l2 : ((data.drop n).take n).length = n := by
      rw [List.length_take, List.length_drop]
      omega
    have l3 : ((data.drop (2 * n)).take n).length = n := by
      rw [List.length_take, List.length_drop]
      omega
    have l4 : ((data.drop (3 * n)).take n).length = n := by
      rw [List.length_take, List.length_drop]
      omega
    rw [mkStimParams, if_pos (by rw [l1, l2, l3, l4]; exact ⟨rfl, rfl, rfl⟩)]
    simp only [Except.map, StimParams.as_matrix]
    rw [take_drop_quarters data n hdata, l1]
  · rintro ⟨shape, data⟩ hbad
    rw [StimParams.from_matrix, if_neg hbad]

/-- C10 witness: the round trip on a concrete single-channel matrix, and the
shape error on a concrete 1-dimensional array. -/
theorem claim_C10_witness :
    ((StimParams.from_matrix ⟨[4, 1], [5, 6, 7, 8]⟩).map StimParams.as_matrix =
      .ok ⟨[4, 1], [5, 6, 7, 8]⟩) ∧
    StimParams.from_matrix ⟨[3], [0, 0, 0]⟩ = .error .valueError := by
  constructor
  · exact claim_C10.1 ⟨[4, 1], [5, 6, 7, 8]⟩ 1 rfl (by simp) le_rfl
  · exact claim_C10.2 ⟨[3], [0, 0, 0]⟩ (by simp)

/-! ## Claim C2: boundedness of the analytical and composite severities -/

theorem analytical_suppression_loss_bounds (b s : ℝ) :
    -1 ≤ analytical_suppression_loss b s ∧ analytical_suppression_loss b s ≤ 1 := by
  rw [analytical_suppression_loss]
  split
  · norm_num
  · have h1 : (0 : ℝ) ≤ clip ((b - s) / b) 0 1 := lo_le_clip _ _ _ (by norm_num)
    have h2 : clip ((b - s) / b) 0 1 ≤ 1 := clip_le_hi _ _ _
    constructor <;> linarith

/-- The analytical branch formula, were it reachable, stays within the
severity range promised by the docstring of calculate_loss, vanishes below
the 1e-12 baseline floor, and the composite blend is likewise bounded. -/
theorem analytical_backend_in_range :
    (∀ (sim : Simulator) (entropy : ℕ) (stim : StimParams) (patient : PatientParams)
      (cfg : RolloutConfig) (seed : ℕ),
      -1 ≤ (analytical_backend sim entropy stim patient cfg seed).toOption.getD 0 ∧
      (analytical_backend sim entropy stim patient cfg seed).toOption.getD 0 ≤ 1) ∧
    (∀ b s : ℝ, b < 1e-12 → analytical_suppression_loss b s = 0) ∧
    (∀ w_motor w_non_motor w_duration motor non_motor duration : ℝ,
      -1 ≤ composite_loss w_motor w_non_motor w_duration motor non_motor duration ∧
      composite_loss w_motor w_non_motor w_duration motor non_motor duration ≤ 1) := by
  refine ⟨fun sim entropy stim patient cfg seed => ?_,
    fun b s hb => by rw [analytical_suppression_loss, if_pos hb],
    fun w1 w2 w3 m nm d => ⟨lo_le_clip _ _ _ (by norm_num), clip_le_hi _ _ _⟩⟩
  simp only [analytical_backend]
  cases hb : sim.run entropy (zero_stim stim) patient cfg none (some ⟨seed + 1, 0⟩) with
  | error err => simp [Except.toOption]
  | ok base =>
    cases hs : sim.run entropy stim patient cfg none (some ⟨seed + 1, 0⟩) with
    | error err => simp [Except.toOption]
    | ok stimd =>
      simpa [Except.toOption] using
        analytical_suppression_loss_bounds (acc_rms base.acc) (acc_rms stimd.acc)

/-- C2 evaluated at a concrete call: calculate_loss with the analytical
backend on a well-shaped (4, 1) matrix raises TypeError before the analytical
branch, because the unconditional patient sampling at loss.py line 477 passes
the treatment_goals keyword to the PatientParams dataclass that lacks the
field.  The analytical branch never returns a severity. -/
theorem claim_C2_bug :
    calculate_loss simC8 0 ⟨[4, 1], [1, 130, 0.00006, 0]⟩ none cfgC8 0 =
      .error .typeError := by
  have hkw : kwargsValid samplingCallKwargs patientParamsFields = false := by decide
  have hsamp : sample_patient_params (default_rng 0 (some 0)) 1 none =
      .error .typeError := by
    rw [sample_patient_params, samplePatientLoop, samplePatientOnce, hkw]
    simp
  rw [calculate_loss, if_pos (by simp), if_neg (by simp)]
  simp only [hsamp]

/-! ## Claim C3: small-sample fallback of the optimizer -/

/-- The fallback text itself: any history with at least one row but fewer
than fallback_min_samples rows would make the dead module-level block return
the most recent row unchanged with no surrogate fit.  This is a property of
the statements as written, not reachable behavior: the module fails to
load (see claim C3). -/
theorem modelCore_fallback (h : List (List ℝ × ℝ)) (fmin : ℕ) (h1 : 1 ≤ h.length)
    (h2 : h.length < fmin) :
    modelCore h fmin = .ok (.fallback ((h.getLast?.map Prod.fst).getD [])) := by
  have hne : h.isEmpty = false := by
    cases h
    · simp at h1
    · simp
  simp only [modelCore, hne, Bool.false_eq_true, if_false]
  have hlen : (if 1 < (h.map Prod.fst).length then (coalesce h).unzip
      else (h.map Prod.fst, h.map Prod.snd)).2.length < fmin := by
    split
    · rw [List.unzip_snd, List.length_map]
      have e2 : (coalesce h).length ≤ h.length := by
        rw [coalesce, List.length_map]
        exact le_trans (uniqueKeys_length_le _) (by rw [List.length_map])
      omega
    · rw [List.length_map]
      exact h2
  rw [if_pos hlen]

/-- The fallback text on a history of exactly two rows: it would return the
second row verbatim with a null surrogate. -/
theorem modelCore_fallback_example :
    1 ≤ historyTwoRows.length ∧ historyTwoRows.length < 3 ∧
      modelCore historyTwoRows 3 = .ok (.fallback [4, 5]) := by
  refine ⟨by simp [historyTwoRows], by simp [historyTwoRows], ?_⟩
  have h := modelCore_fallback historyTwoRows 3 (by simp [historyTwoRows])
    (by simp [historyTwoRows])
  simpa [historyTwoRows] using h

/-- C3 evaluated on the statement skeleton of backend/Bayes.py: the first
return statement outside every function body sits at line 252, so importing
the module raises SyntaxError there and model can never run; and the body of
model as Python parses it (the statements after the line-105 def header and
before the column-0 statement at line 149) contains no return statement at
all, so even the parsed function could not return the fallback dict.  The
small-sample fallback the claim describes can never execute. -/
theorem claim_C3_bug :
    firstReturnOutside none bayesModuleStmts = some 252 ∧
    ((defBodyAfter 105 0 bayesModuleStmts).all fun s => ! s.isReturn) = true := by
  constructor
  · decide
  · decide

/-! ## Claim C1: determinism of Simulator.run -/

/-- C1: with an explicit seed, two invocations of Simulator.run produce the
same MeasurementOutput value (hence identical t, pos, vel, acc and meta), for
every ambient OS entropy the two calls could have observed, and in particular
when the configuration has include_noise set.  All randomness flows through
the generator created from the seed; nothing else is consumed. -/
theorem claim_C1 (sim : Simulator) (entropy₁ entropy₂ : ℕ) (p : StimParams)
    (patient : PatientParams) (cfg : RolloutConfig) (s : ℕ) :
    (sim.run entropy₁ p patient cfg (some s) none =
      sim.run entropy₂ p patient cfg (some s) none) ∧
    ((sim.run entropy₁ p patient cfg (some s) none).map MeasurementOutput.t =
        (sim.run entropy₂ p patient cfg (some s) none).map MeasurementOutput.t ∧
      (sim.run entropy₁ p patient cfg (some s) none).map MeasurementOutput.pos =
        (sim.run entropy₂ p patient cfg (some s) none).map MeasurementOutput.pos ∧
      (sim.run entropy₁ p patient cfg (some s) none).map MeasurementOutput.vel =
        (sim.run entropy₂ p patient cfg (some s) none).map MeasurementOutput.vel ∧
      (sim.run entropy₁ p patient cfg (some s) none).map MeasurementOutput.acc =
        (sim.run entropy₂ p patient cfg (some s) none).map MeasurementOutput.acc ∧
      (sim.run entropy₁ p patient cfg (some s) none).map MeasurementOutput.meta =
        (sim.run entropy₂ p patient cfg (some s) none).map MeasurementOutput.meta) ∧
    (sim.run entropy₁ p patient (withNoise cfg) (some s) none =
      sim.run entropy₂ p patient (withNoise cfg) (some s) none) :=
  ⟨rfl, ⟨rfl, rfl, rfl, rfl, rfl⟩, rfl⟩

/-! ## Claim C8: failure behavior of Simulate -/

/-- C4 on the staged program: the statement skeleton of backend/Bayes.py has
a return outside every function (line 252), so importing the module raises
SyntaxError and gp.fit is never reached — no fit, coalesced or not, ever
happens.  Moreover, even the dead data-preparation text diverges from the
claim: evaluated on historyDup the feature matrix reaching the fit holds the
three distinct parameter rows, but the target vector is re-read from the
severity column after the coalescing (Bayes.py line 290) and keeps all four
entries, so the fit text pairs three feature rows with four targets. -/
theorem claim_C4_bug :
    (firstReturnOutside none bayesModuleStmts).isSome = true ∧
    (modelCore historyDup 3 =
      .ok (.fitted [[1, 2, 3, 4], [5, 6, 7, 8], [9, 10, 11, 12]] [5, 7, 1, 2]) ∧
    ([[1, 2, 3, 4], [5, 6, 7, 8], [9, 10, 11, 12]] : List (List ℝ)).length = 3 ∧
    ([5, 7, 1, 2] : List ℝ).length = 4) := by
  refine ⟨by decide, ?_, by simp, by simp⟩
  have hne1 : (([5, 6, 7, 8] : List ℝ) ≠ [1, 2, 3, 4]) := by
    intro hcontra
    simp only [List.cons.injEq] at hcontra
    norm_num at hcontra
  have hne2 : (([9, 10, 11, 12] : List ℝ) ≠ [1, 2, 3, 4]) := by
    intro hcontra
    simp only [List.cons.injEq] at hcontra
    norm_num at hcontra
  have hne3 : (([9, 10, 11, 12] : List ℝ) ≠ [5, 6, 7, 8]) := by
    intro hcontra
    simp only [List.cons.injEq] at hcontra
    norm_num at hcontra
  have hkeys : uniqueKeys (historyDup.map Prod.fst) =
      [[1, 2, 3, 4], [5, 6, 7, 8], [9, 10, 11, 12]] := by
    rw [historyDup]
    simp only [List.map_cons, List.map_nil]
    rw [uniqueKeys]
    simp only [List.filter_cons, List.filter_nil, decide_eq_true_eq]
    rw [if_neg (by simp), if_pos (by simpa using hne1), if_pos (by simpa using hne2)]
    rw [uniqueKeys]
    simp only [List.filter_cons, List.filter_nil, decide_eq_true_eq]
    rw [if_pos (by simpa using hne3)]
    rw [uniqueKeys, List.filter_nil, uniqueKeys]
  have hco : (coalesce historyDup).unzip.1 =
      [[1, 2, 3, 4], [5, 6, 7, 8], [9, 10, 11, 12]] := by
    rw [List.unzip_fst, coalesce, hkeys]
    simp
  have hlen : (coalesce historyDup).unzip.2.length = 3 := by
    rw [List.unzip_snd, List.length_map, coalesce, hkeys]
    simp
  simp only [modelCore]
  rw [if_neg (by simp [historyDup])]
  have hcond : (if 1 < (List.map Prod.fst historyDup).length then (coalesce historyDup).unzip
      else (List.map Prod.fst historyDup, List.map Prod.snd historyDup)) =
      (coalesce historyDup).unzip := if_pos (by simp [historyDup])
  rw [hcond, if_neg (by rw [hlen]; norm_num), hco]
  simp [historyDup]

/-! ## Claim C7: treatment goals attached by the cohort sampler -/

/-- C7 evaluated at a concrete call: sampling a single patient raises TypeError
because sample_patient_params passes the treatment_goals keyword argument to a
PatientParams dataclass that declares no such field. -/
theorem claim_C7_bug :
    sample_patient_params ⟨42, 0⟩ 1 none = .error .typeError := by
  have hkw : kwargsValid samplingCallKwargs patientParamsFields = false := by decide
  rw [sample_patient_params, samplePatientLoop, samplePatientOnce, hkw]
  simp

/-! ## Claim C5: batch size of the diverse selection -/

theorem normDist_nonneg (a b : List ℝ) : 0 ≤ normDist a b := Real.sqrt_nonneg _

theorem nodup_subset_length_le {l₁ l₂ : List ℕ} (h1 : l₁.Nodup) (hsub : l₁ ⊆ l₂) :
    l₁.length ≤ l₂.length := by
  calc l₁.length = l₁.toFinset.card := (List.toFinset_card_of_nodup h1).symm
    _ ≤ l₂.toFinset.card := by
        apply Finset.card_le_card
        intro x hx
        rw [List.mem_toFinset] at hx ⊢
        exact hsub hx
    _ ≤ l₂.length := List.toFinset_card_le _

theorem greedySelect_spec (candN obsN : List (List ℝ)) (min_d : ℝ) (kEff : ℕ) :
    ∀ (rest sel : List ℕ), sel.Nodup → sel.Disjoint rest → rest.Nodup →
      sel.length < kEff →
      (greedySelect candN obsN min_d kEff rest sel).Nodup ∧
      (∀ i ∈ greedySelect candN obsN min_d kEff rest sel, i ∈ sel ∨ i ∈ rest) ∧
      (greedySelect candN obsN min_d kEff rest sel).length ≤ kEff := by
  intro rest
  induction rest with
  | nil =>
    intro sel hnd _ _ hlt
    rw [greedySelect]
    exact ⟨hnd, fun i hi => Or.inl hi, le_of_lt hlt⟩
  | cons idx rest ih =>
    intro sel hnd hdisj hrestnd hlt
    have hdisj2 : sel.Disjoint rest := fun a ha hb => hdisj ha (List.mem_cons_of_mem _ hb)
    have hidxsel : idx ∉ sel := fun hmem => hdisj hmem (List.mem_cons_self _ _)
    have hidxrest : idx ∉ rest := (List.nodup_cons.mp hrestnd).1
    have hrestnd2 : rest.Nodup := (List.nodup_cons.mp hrestnd).2
    rw [greedySelect]
    split
    · rcases ih sel hnd hdisj2 hrestnd2 hlt with ⟨a, b, c⟩
      exact ⟨a, fun i hi => (b i hi).imp id (List.mem_cons_of_mem _), c⟩
    · split
      · rcases ih sel hnd hdisj2 hrestnd2 hlt with ⟨a, b, c⟩
        exact ⟨a, fun i hi => (b i hi).imp id (List.mem_cons_of_mem _), c⟩
      · have hnd2 : (sel ++ [idx]).Nodup := by
          rw [List.nodup_append]
          exact ⟨hnd, List.nodup_singleton _, by
            intro a ha hb
            rw [List.mem_singleton] at hb
            exact hidxsel (hb ▸ ha)⟩
        have hsub2 : ∀ i ∈ sel ++ [idx], i ∈ sel ∨ i ∈ idx :: rest := by
          intro i hi
          rw [List.mem_append, List.mem_singleton] at hi
          rcases hi with hi | hi
          · exact Or.inl hi
          · exact Or.inr (hi ▸ List.mem_cons_self _ _)
        split
        · rename_i hstop
          refine ⟨hnd2, hsub2, ?_⟩
          rw [List.length_append, List.length_singleton]
          omega
        · rename_i hcont
          have hlen2 : (sel ++ [idx]).length < kEff := by
            rw [List.length_append, List.length_singleton]
            rw [List.length_append, List.length_singleton] at hcont
            omega
          have hdisj3 : (sel ++ [idx]).Disjoint rest := by
            intro a ha hb
            rw [List.mem_append, List.mem_singleton] at ha
            rcases ha with ha | ha
            · exact hdisj2 ha hb
            · exact hidxrest (ha ▸ hb)
          rcases ih (sel ++ [idx]) hnd2 hdisj3 hrestnd2 hlen2 with ⟨a, b, c⟩
          refine ⟨a, fun i hi => ?_, c⟩
          rcases b i hi with hi2 | hi2
          · exact hsub2 i hi2
          · exact Or.inr (List.mem_cons_of_mem _ hi2)

theorem fillSelect_spec (order : List ℕ) (horder : order.Nodup) (k : ℕ)
    (hk : k ≤ order.length) :
    ∀ (fuel : ℕ) (sel : List ℕ), sel.Nodup → (∀ i ∈ sel, i ∈ order) →
      sel.length ≤ k → k - sel.length ≤ fuel →
      (fillSelect order k fuel sel).length = k := by
  intro fuel
  induction fuel with
  | zero =>
    intro sel _ _ hle hfuel
    rw [fillSelect]
    omega
  | succ fuel ih =>
    intro sel hnd hsub hle hfuel
    by_cases hlt : sel.length < k
    · cases hfind : order.find? (fun i => ! sel.contains i) with
      | none =>
        exfalso
        have hall : ∀ i ∈ order, i ∈ sel := by
          intro i hi
          have := List.find?_eq_none.mp hfind i hi
          simpa using this
        have := nodup_subset_length_le horder hall
        omega
      | some i =>
        have himem : i ∈ order := List.mem_of_find?_eq_some hfind
        have hinot : i ∉ sel := by
          have := List.find?_some hfind
          simpa using this
        have hnd2 : (sel ++ [i]).Nodup := by
          rw [List.nodup_append]
          exact ⟨hnd, List.nodup_singleton _, by
            intro a ha hb
            rw [List.mem_singleton] at hb
            exact hinot (hb ▸ ha)⟩
        have hsub2 : ∀ j ∈ sel ++ [i], j ∈ order := by
          intro j hj
          rw [List.mem_append, List.mem_singleton] at hj
          rcases hj with hj | hj
          · exact hsub j hj
          · exact hj ▸ himem
        have hlen2 : (sel ++ [i]).length = sel.length + 1 := by
          rw [List.length_append, List.length_singleton]
        rw [fillSelect]
        simp only [if_pos hlt, hfind]
        by_cases hfull : (sel ++ [i]).length = order.length
        · rw [if_pos hfull]
          omega
        · rw [if_neg hfull]
          exact ih (sel ++ [i]) hnd2 hsub2 (by omega) (by omega)
    · rw [fillSelect, if_neg hlt]
      omega

/-- The selection text itself: for every candidate pool, observation set,
duplicate-free score order and batch size k with 1 at most k at most the pool
size, the dead selection block would return exactly k candidate indices, and
the assembled next_params_batch would have exactly k entries.  A property of
the statements as written, not reachable behavior (see claim C5). -/
theorem selectBatch_count (candN obsN : List (List ℝ)) (order : List ℕ)
    (min_distance_frac : ℝ) (k : ℕ) (h1 : order.Nodup) (h2 : 1 ≤ k)
    (h3 : k ≤ order.length) :
    (selectBatch candN obsN order min_distance_frac k).map List.length = .ok k ∧
    (selectBatch candN obsN order min_distance_frac k).map
      (fun sel => (next_params_batch candN sel).length) = .ok k := by
  have hkeff : max 1 k = k := max_eq_right h2
  have hfill : ∀ sel : List ℕ, sel.Nodup → (∀ i ∈ sel, i ∈ order) → sel.length ≤ k →
      1 ≤ sel.length → (fillSelect order k k sel).length = k := by
    intro sel hnd hsub hle hge
    exact fillSelect_spec order h1 k h3 k sel hnd hsub hle (by omega)
  have hgr := greedySelect_spec candN obsN (max 0 min_distance_frac) k order []
    (List.nodup_nil) (by intro a ha; simp at ha) h1
    (by simp only [List.length_nil]; omega)
  simp only [selectBatch, hkeff]
  cases hg : greedySelect candN obsN (max 0 min_distance_frac) k order [] with
  | nil =>
    cases horder : order with
    | nil =>
      exfalso
      rw [horder] at h3
      simp at h3
      omega
    | cons i rest =>
      have hres : (fillSelect (i :: rest) k k [i]).length = k := by
        rw [← horder]
        apply hfill
        · exact List.nodup_singleton _
        · intro j hj
          rw [List.mem_singleton] at hj
          rw [hj, horder]
          exact List.mem_cons_self _ _
        · simpa using h2
        · simp
      exact ⟨by simp [Except.map, hres], by simp [Except.map, next_params_batch, hres]⟩
  | cons s ss =>
    rw [hg] at hgr
    have hres : (fillSelect order k k (s :: ss)).length = k := by
      apply hfill
      · exact hgr.1
      · intro j hj
        rcases hgr.2.1 j hj with hj2 | hj2
        · simp at hj2
        · exact hj2
      · exact hgr.2.2
      · simp
    exact ⟨by simp [Except.map, hres], by simp [Except.map, next_params_batch, hres]⟩

/-- The selection text on a pool of three candidates with batch size two:
exactly two selected candidates. -/
theorem selectBatch_count_example :
    ([0, 1, 2] : List ℕ).Nodup ∧ 1 ≤ 2 ∧ 2 ≤ ([0, 1, 2] : List ℕ).length ∧
    (selectBatch [[0], [1], [2]] [] [0, 1, 2] 0 2).map List.length = .ok 2 := by
  refine ⟨by decide, by norm_num, by simp, ?_⟩
  exact (selectBatch_count [[0], [1], [2]] [] [0, 1, 2] 0 2 (by decide) (by norm_num)
    (by simp)).1

/-- C5 on the staged program: the statement skeleton of backend/Bayes.py has
a return outside every function (line 252), so importing the module raises
SyntaxError and model never returns any batch — the claimed guarantee has no
run to hold of.  Moreover the dead selection text never appends a duplicate:
with two candidates and a requested batch size of three it returns only the
two distinct candidates, so the duplicates-as-last-resort clause has no basis
even in the text. -/
theorem claim_C5_bug :
    (firstReturnOutside none bayesModuleStmts).isSome = true ∧
    selectBatch [[0], [1]] [] [0, 1] 0 3 = .ok [0, 1] ∧
    ([0, 1] : List ℕ).length ≠ 3 := by
  refine ⟨by decide, ?_, by simp⟩
  have hmax : max (0 : ℝ) 0 = 0 := max_self 0
  have hnolt : ∀ a b : List ℝ, ¬ normDist a b < (0 : ℝ) := fun a b =>
    not_lt.mpr (normDist_nonneg a b)
  have hg : greedySelect [[0], [1]] [] 0 3 [0, 1] [] = [0, 1] := by
    rw [greedySelect]
    rw [if_neg (by simp), if_neg (by simp)]
    rw [if_neg (by simp)]
    rw [greedySelect]
    rw [if_neg (by simp), if_neg (by simp [hnolt])]
    rw [if_neg (by simp)]
    rw [greedySelect]
    simp
  have hf : fillSelect [0, 1] 3 3 [0, 1] = [0, 1] := by
    rw [fillSelect]
    rw [if_pos (by simp)]
    have hfind : ([0, 1] : List ℕ).find? (fun i => ! ([0, 1] : List ℕ).contains i) =
        none := by decide
    rw [hfind]
  simp only [selectBatch, hmax, (by norm_num : max 1 3 = 3), hg, hf]

/-- C9 witness: concrete instances of all three edge cases. -/
theorem claim_C9_witness :
    ((-1 : ℝ) ≤ 0 ∧ square_pulse_train [0, 1, 2] 3 (-1) 1 0 = [0, 0, 0]) ∧
    ((0 : ℝ) < 2 ∧ (1 : ℝ) / 2 ≤ 1 ∧ square_pulse_train [0, 1, 2] 3 2 1 0 = [3, 3, 3]) ∧
    ((0 : ℝ) ≥ 0 ∧ square_pulse_train [0, 1, 2] 3 2 0 0 = [0, 0, 0]) := by
  refine ⟨⟨by norm_num, ?_⟩, ⟨by norm_num, by norm_num, ?_⟩, ⟨le_refl 0, ?_⟩⟩
  · have h := (claim_C9 [0, 1, 2] 3 (-1) 1 0).1 (by norm_num)
    simpa using h
  · have h := (claim_C9 [0, 1, 2] 3 2 1 0).2.1 (by norm_num) (by norm_num)
    simpa using h
  · have h := (claim_C9 [0, 1, 2] 3 2 0 0).2.2 (le_refl 0)
    simpa using h

end StimIQ
